import Mathlib

/-!
Verification of the Sentinel-2 grid GeoParquet builder (`src/utils.py`).

The core of the script is `union_query_strtree`: it unions a land-mask
GeoDataFrame into one geometry, decomposes a MultiPolygon union into its
constituent polygons, queries an STRtree built over the grid geometries with
each constituent, and returns either the single raw query result or the
sorted deduplicated union of all query results.

Shallow embedding choices (each noted at the definition it concerns):
* geometries are modelled as finite unions of closed axis-aligned boxes with
  integer coordinates, so the `intersects` predicate is exact and decidable;
* the library calls (`shapely.union_all`, `shapely.STRtree.query`,
  `numpy.unique`, `numpy.concatenate`, Python `str.split`, `re.findall`,
  list indexing) are modelled from their documented contracts, since the
  libraries are not part of this repository;
* Python exceptions become an explicit `Except PyError` result.
-/

/-- Closed axis-aligned box with integer coordinates; the model of one
simple polygon (or of a point, as a degenerate box). -/
structure Rect where
  xmin : Int
  ymin : Int
  xmax : Int
  ymax : Int
deriving Repr, DecidableEq, Inhabited

/-- Two closed boxes intersect iff their coordinate ranges overlap in both
axes.  This is exactly the point-set intersection test for closed boxes. -/
def Rect.overlaps (a b : Rect) : Bool :=
  decide (a.xmin ≤ b.xmax ∧ b.xmin ≤ a.xmax ∧ a.ymin ≤ b.ymax ∧ b.ymin ≤ a.ymax)

/-- Model of the shapely geometry values the script manipulates: points,
simple polygons, multi-polygons, and the empty collection that
`shapely.union_all` returns for an empty input. -/
inductive Geometry where
  | point (x y : Int)
  | polygon (r : Rect)
  | multiPolygon (parts : List Rect)
  | emptyCollection
deriving Repr, DecidableEq, Inhabited

/-- The boxes whose union is the point set of a geometry. -/
def Geometry.parts : Geometry → List Rect
  | .point x y => [⟨x, y, x, y⟩]
  | .polygon r => [r]
  | .multiPolygon ps => ps
  | .emptyCollection => []

/-- Whether the value is a shapely `Point` (`isinstance(g, Point)`). -/
def Geometry.isPoint : Geometry → Bool
  | .point _ _ => true
  | _ => false

/-- Whether the value is a shapely `MultiPolygon`. -/
def Geometry.isMultiPolygonB : Geometry → Bool
  | .multiPolygon _ => true
  | _ => false

/-- Whether the value is a shapely `Polygon`. -/
def Geometry.isPolygonB : Geometry → Bool
  | .polygon _ => true
  | _ => false

/-- Model of the shapely `intersects` predicate: the two point sets meet iff
some box of one overlaps some box of the other. -/
def intersectsB (a b : Geometry) : Bool :=
  a.parts.any fun r => b.parts.any fun s => r.overlaps s

/-- Model of a Python value handed to the type dispatch inside
`union_query_strtree`: either a shapely geometry or anything else. -/
inductive PyObject where
  | geom (g : Geometry)
  | other
deriving Repr, DecidableEq

/-- Whether the Python value is a shapely geometry
(`isinstance(x, Geometry)`). -/
def PyObject.isGeom : PyObject → Bool
  | .geom _ => true
  | .other => false

/-- Model of the Python exceptions the script can raise. -/
inductive PyError where
  | indexError
  | valueError (msg : String)
deriving Repr, DecidableEq

/-- Modelled from the shapely contract: `union_all` of a family of
geometries returns their geometric union: a single part comes back as a
`Polygon`, several parts as a `MultiPolygon`, an empty input as an empty
collection.  In this box model, overlapping parts are kept as separate
constituents of the multi-polygon — the point set is the same; the real
library would additionally dissolve touching parts, which a box model
cannot represent and which no theorem below depends on. -/
def union_all (gs : List Geometry) : Geometry :=
  match gs.flatMap Geometry.parts with
  | [] => Geometry.emptyCollection
  | [r] => Geometry.polygon r
  | ps => Geometry.multiPolygon ps

/-- The constituent simple geometries of the unioned query geometry, as the
source iterates over them: `geometry.geoms` for a MultiPolygon, the
geometry itself otherwise (lines 87-90 of `src/utils.py`). -/
def geomConstituents : Geometry → List Geometry
  | Geometry.multiPolygon ps => ps.map Geometry.polygon
  | g => [g]

/-- The `isinstance` dispatch of `union_query_strtree` (utils.py lines
87-92): a MultiPolygon is decomposed into its parts, any other recognized
geometry is kept whole, and anything else raises
`ValueError("geometry must be a shapely.Geometry")`. -/
def decomposeQuery : PyObject → Except PyError (List Geometry)
  | .geom g => .ok (geomConstituents g)
  | .other => .error (.valueError ("geometry must be a shapely.Geometry"))

/-- Recursion worker for the STRtree query: indices are produced in
ascending order starting at `i`. -/
def queryAux (pred : Geometry → Geometry → Bool) (g : Geometry) :
    List Geometry → Nat → List Nat
  | [], _ => []
  | t :: ts, i =>
      if pred g t then i :: queryAux pred g ts (i + 1)
      else queryAux pred g ts (i + 1)

/-- Modelled from the STRtree contract as the spec records it: querying the
tree built over `geoms` with query geometry `g` returns the ascending array
of indices `i` with `pred g geoms[i]` true. -/
def strtreeQuery (geoms : List Geometry) (pred : Geometry → Geometry → Bool)
    (g : Geometry) : List Nat :=
  queryAux pred g geoms 0

/-- Modelled from the numpy contract: `np.unique` returns the
ascending-sorted list of distinct values. -/
def npUnique (l : List Nat) : List Nat :=
  List.insertionSort (· ≤ ·) l.dedup

/-- Modelled from the numpy contract: `np.concatenate` concatenates a
nonempty sequence of arrays and raises a ValueError on an empty one. -/
def npConcatenate (ls : List (List Nat)) : Except PyError (List Nat) :=
  match ls with
  | [] => .error (.valueError ("need at least one array to concatenate"))
  | _ => .ok ls.flatten

/-- Embedding of `union_query_strtree` (utils.py lines 53-105).  `gdf` is
the list of indexed grid geometries, `gdf_to_query` the land-mask
geometries.  The `to_crs(epsg=4326)` calls are modelled as the identity:
in this model the geometries are already in the common geographic frame
(the precondition the spec states); `shapely.prepare` is a performance hint with no
semantic effect.  The source then unions the query frame, dispatches on the
type of the union, queries the tree once per constituent, and returns either the
lone raw query result (`len(all_indices) == 1`) or
`np.unique(np.concatenate(all_indices))`. -/
def union_query_strtree (gdf : List Geometry) (gdf_to_query : List Geometry)
    (predicate : Geometry → Geometry → Bool) : Except PyError (List Nat) :=
  let geometry := union_all gdf_to_query
  match decomposeQuery (PyObject.geom geometry) with
  | .error e => .error e
  | .ok geometries =>
      let all_indices := geometries.map fun g => strtreeQuery gdf predicate g
      match all_indices with
      | [single] => .ok single
      | other =>
          match npConcatenate other with
          | .error e => .error e
          | .ok flat => .ok (npUnique flat)

/-- The box of a simple polygon; the content handed to the shapely
`Polygon(...)` copy constructor at utils.py line 111 (at that call site the
argument is always a simple polygon part of the KML geometry collection). -/
def polyRect (g : Geometry) : Rect :=
  match g with
  | Geometry.polygon r => r
  | g => g.parts.headD ⟨0, 0, 0, 0⟩

/-- Embedding of `multipolygon_from_geoms` (utils.py lines 108-114): keep
the non-Point geometries; exactly one becomes a `Polygon`, any other count
becomes a `MultiPolygon` of all their parts. -/
def multipolygon_from_geoms (geoms : List Geometry) : Geometry :=
  match geoms.filter (fun g => !g.isPoint) with
  | [p] => Geometry.polygon (polyRect p)
  | polys => Geometry.multiPolygon (polys.flatMap Geometry.parts)

/-- Embedding of `center_from_geoms` (utils.py lines 117-119): the first
Point of the list; Python raises an IndexError when there is none. -/
def center_from_geoms (geoms : List Geometry) : Except PyError Geometry :=
  match geoms.filter Geometry.isPoint with
  | [] => .error .indexError
  | p :: _ => .ok p

/-- Model of Python list indexing `l[i]`: a negative index counts from the
end; an out-of-range index of either sign raises an IndexError. -/
def pyGet {α : Type} (l : List α) (i : Int) : Except PyError α :=
  let j : Int := if i < 0 then (l.length : Int) + i else i
  if h : 0 ≤ j ∧ j < (l.length : Int) then
    .ok (l.get ⟨j.toNat, by omega⟩)
  else
    .error .indexError

/-- Leftmost occurrence of the separator `sep` in a string: returns the
text before and the text after the occurrence, or `none` when `sep` does
not occur. -/
def findOcc (sep : List Char) : List Char → Option (List Char × List Char)
  | [] => if sep = [] then some ([], []) else none
  | c :: cs =>
      if sep.isPrefixOf (c :: cs) then some ([], (c :: cs).drop sep.length)
      else
        match findOcc sep cs with
        | some (pre, post) => some (c :: pre, post)
        | none => none

/-- Fuel-indexed worker for `pySplit`; the fuel only serves structural
termination and `pySplit` always supplies enough of it for a nonempty
separator. -/
def pySplitAux (sep : List Char) : Nat → List Char → List (List Char)
  | 0, s => [s]
  | fuel + 1, s =>
      match findOcc sep s with
      | none => [s]
      | some (pre, post) => pre :: pySplitAux sep fuel post

/-- Model of Python `str.split(sep)` for a nonempty separator: the pieces
between the leftmost non-overlapping occurrences of `sep` (pieces may be
empty; a string without `sep` yields the one-element list of itself). -/
def pySplit (sep : List Char) (s : List Char) : List (List Char) :=
  pySplitAux sep (s.length + 1) s

/-- Lazy completion of the regex fragment `(.+?)B` at the current position:
the shortest nonempty newline-free capture followed immediately by the
literal `B`; returns the capture and the text after `B`.  The dot of a
Python regex does not match a newline. -/
def findDelim (B : List Char) : List Char → Option (List Char × List Char)
  | [] => none
  | c :: cs =>
      if c = '\n' then none
      else if B.isPrefixOf cs then some ([c], cs.drop B.length)
      else
        match findDelim B cs with
        | some (cap, rest) => some (c :: cap, rest)
        | none => none

/-- Fuel-indexed worker for `findallDelim`: scan for the literal `A`, try
the lazy completion, and on success continue after the match
(non-overlapping), otherwise advance one character. -/
def findallAux (A B : List Char) : Nat → List Char → List (List Char)
  | 0, _ => []
  | _ + 1, [] => []
  | fuel + 1, c :: cs =>
      if A.isPrefixOf (c :: cs) then
        match findDelim B ((c :: cs).drop A.length) with
        | some (cap, rest) => cap :: findallAux A B fuel rest
        | none => findallAux A B fuel cs
      else findallAux A B fuel cs

/-- Model of Python `re.findall` for a pattern of the shape `A(.+?)B` with
`A`, `B` literal: the list of captures of the leftmost non-overlapping
matches, in order. -/
def findallDelim (A B : List Char) (s : List Char) : List (List Char) :=
  findallAux A B (s.length + 1) s

/-- Model of Python `int(str)` on a plain decimal literal: optional
surrounding spaces, optional sign, at least one digit; anything else raises
a ValueError.  The exotic forms Python also accepts (underscores, other
whitespace, other bases) never occur in this data and are mapped to the
error case as well. -/
def pyInt (s : List Char) : Except PyError Int :=
  let t := ((s.dropWhile (· = ' ')).reverse.dropWhile (· = ' ')).reverse
  let core : List Char → Except PyError Int := fun ds =>
    if ds ≠ [] ∧ ds.all Char.isDigit then
      .ok (ds.foldl (fun n c => 10 * n + (Int.ofNat (c.toNat - '0'.toNat))) 0)
    else
      .error (.valueError ("invalid literal for int()"))
  match t with
  | '-' :: ds => (core ds).map (fun n => -n)
  | '+' :: ds => core ds
  | ds => core ds

/-- The literal separator of the metadata splits. -/
def bTag : List Char := "<b>".toList

/-- The literal part of the EPSG regex before the capture. -/
def fontOpen : List Char := "<font COLOR=\"#008000\">".toList

/-- The literal part of the EPSG regex after the capture. -/
def fontClose : List Char := "</font>".toList

/-- The literal part of the MULTIPOLYGON regex before the capture. -/
def mpOpen : List Char := "MULTIPOLYGON(((".toList

/-- The literal part of the MULTIPOLYGON regex after the capture. -/
def mpClose : List Char := ")))".toList

/-- Embedding of `get_utm_wkt` (utils.py lines 13-30): take the
second-to-last piece of `description.split("<b>")`, run
`re.findall(r"MULTIPOLYGON\(\(\((.+?)\)\)\)", text)`, and build
`f"POLYGON (({m[0]}))"`; `m[0]` raises an IndexError when there is no
match, as does the `[-2]` when the split has fewer than two pieces. -/
def get_utm_wkt (description : List Char) : Except PyError (List Char) :=
  match pyGet (pySplit bTag description) (-2) with
  | .error e => .error e
  | .ok text =>
      match pyGet (findallDelim mpOpen mpClose text) 0 with
      | .error e => .error e
      | .ok cap => .ok ("POLYGON ((".toList ++ cap ++ "))".toList)

/-- Embedding of `get_epsg` (utils.py lines 33-50): take piece 2 of
`description.split("<b>")`, run
`re.findall(<the font-color pattern>, text)`, and return
`int(m[0])`; `m[0]` raises an IndexError when there is no match, as does
the `[2]` when the split has fewer than three pieces. -/
def get_epsg (description : List Char) : Except PyError Int :=
  match pyGet (pySplit bTag description) 2 with
  | .error e => .error e
  | .ok text =>
      match pyGet (findallDelim fontOpen fontClose text) 0 with
      | .error e => .error e
      | .ok cap => pyInt cap

/-- Concrete two-tile grid fixture: one tile near the origin, one far away.
Used by the witness theorems. -/
def gdfW : List Geometry :=
  [Geometry.polygon ⟨0, 0, 1, 1⟩, Geometry.polygon ⟨5, 5, 6, 6⟩]

/-- Concrete land-mask fixture of two disjoint polygons, the first
overlapping the first tile of `gdfW` only.  Used by the witness theorems. -/
def maskW : List Geometry :=
  [Geometry.polygon ⟨0, 0, 2, 2⟩, Geometry.polygon ⟨10, 10, 11, 11⟩]

/-! Helper lemmas about the geometric model. -/

lemma Rect.overlaps_comm (a b : Rect) : a.overlaps b = b.overlaps a := by
  simp only [Rect.overlaps]
  exact decide_eq_decide.mpr (by constructor <;> (rintro ⟨h1, h2, h3, h4⟩; exact ⟨h2, h1, h4, h3⟩))

lemma intersectsB_iff (a b : Geometry) :
    intersectsB a b = true ↔ ∃ r ∈ a.parts, ∃ s ∈ b.parts, r.overlaps s = true := by
  simp [intersectsB, List.any_eq_true]

lemma intersectsB_comm (a b : Geometry) : intersectsB a b = intersectsB b a := by
  have h : ∀ x y : Geometry, intersectsB x y = true → intersectsB y x = true := by
    intro x y hx
    rw [intersectsB_iff] at hx ⊢
    obtain ⟨r, hr, s, hs, ho⟩ := hx
    exact ⟨s, hs, r, hr, by rw [Rect.overlaps_comm]; exact ho⟩
  cases hab : intersectsB a b with
  | true => exact (h a b hab).symm
  | false =>
      cases hba : intersectsB b a with
      | false => rfl
      | true => exact absurd (h b a hba) (by simp [hab])

lemma parts_union_all (gs : List Geometry) :
    (union_all gs).parts = gs.flatMap Geometry.parts := by
  unfold union_all
  cases h : gs.flatMap Geometry.parts with
  | nil => simp [Geometry.parts]
  | cons r rs =>
      cases rs with
      | nil => simp [Geometry.parts]
      | cons r2 rs2 => simp [Geometry.parts]

lemma intersects_constituents (t g : Geometry) :
    (∃ c ∈ geomConstituents g, intersectsB t c = true) ↔ intersectsB t g = true := by
  cases g with
  | point x y => simp [geomConstituents]
  | polygon r => simp [geomConstituents]
  | emptyCollection => simp [geomConstituents]
  | multiPolygon ps =>
      simp only [geomConstituents, List.mem_map]
      constructor
      · rintro ⟨c, ⟨r, hr, rfl⟩, hi⟩
        rw [intersectsB_iff] at hi ⊢
        obtain ⟨a, ha, s, hs, ho⟩ := hi
        simp only [Geometry.parts, List.mem_singleton] at hs
        subst hs
        exact ⟨a, ha, s, hr, ho⟩
      · intro hi
        rw [intersectsB_iff] at hi
        obtain ⟨a, ha, s, hs, ho⟩ := hi
        simp only [Geometry.parts] at hs
        refine ⟨Geometry.polygon s, ⟨s, hs, rfl⟩, ?_⟩
        rw [intersectsB_iff]
        exact ⟨a, ha, s, by simp [Geometry.parts], ho⟩

lemma geomConstituents_union_all_ne_nil (gs : List Geometry) :
    geomConstituents (union_all gs) ≠ [] := by
  unfold union_all
  cases h : gs.flatMap Geometry.parts with
  | nil => simp [geomConstituents]
  | cons r rs =>
      cases rs with
      | nil => simp [geomConstituents]
      | cons r2 rs2 => simp [geomConstituents]

/-! Helper lemmas about the modelled STRtree query. -/

lemma mem_queryAux (pred : Geometry → Geometry → Bool) (g : Geometry) :
    ∀ (ts : List Geometry) (i j : Nat),
      j ∈ queryAux pred g ts i ↔
        ∃ k t, ts[k]? = some t ∧ pred g t = true ∧ j = i + k := by
  intro ts
  induction ts with
  | nil => intro i j; simp [queryAux]
  | cons t ts ih =>
      intro i j
      simp only [queryAux]
      by_cases hp : pred g t
      · rw [if_pos hp]
        simp only [List.mem_cons, ih]
        constructor
        · rintro (rfl | ⟨k, t', hk, hpt, rfl⟩)
          · exact ⟨0, t, by simp, hp, by omega⟩
          · exact ⟨k + 1, t', by simpa using hk, hpt, by omega⟩
        · rintro ⟨k, t', hk, hpt, rfl⟩
          cases k with
          | zero => simp_all
          | succ k =>
              right
              exact ⟨k, t', by simpa using hk, hpt, by omega⟩
      · rw [if_neg hp]
        rw [ih]
        constructor
        · rintro ⟨k, t', hk, hpt, rfl⟩
          exact ⟨k + 1, t', by simpa using hk, hpt, by omega⟩
        · rintro ⟨k, t', hk, hpt, rfl⟩
          cases k with
          | zero => simp_all
          | succ k =>
              exact ⟨k, t', by simpa using hk, hpt, by omega⟩

lemma le_of_mem_queryAux (pred : Geometry → Geometry → Bool) (g : Geometry) :
    ∀ (ts : List Geometry) (i j : Nat), j ∈ queryAux pred g ts i → i ≤ j := by
  intro ts i j h
  rw [mem_queryAux] at h
  obtain ⟨k, t, _, _, rfl⟩ := h
  omega

lemma queryAux_sorted (pred : Geometry → Geometry → Bool) (g : Geometry) :
    ∀ (ts : List Geometry) (i : Nat), List.Sorted (· < ·) (queryAux pred g ts i) := by
  intro ts
  induction ts with
  | nil => intro i; simp [queryAux]
  | cons t ts ih =>
      intro i
      simp only [queryAux]
      by_cases hp : pred g t
      · rw [if_pos hp]
        refine List.sorted_cons.mpr ⟨?_, ih (i + 1)⟩
        intro b hb
        have := le_of_mem_queryAux pred g ts (i + 1) b hb
        omega
      · rw [if_neg hp]
        exact ih (i + 1)

lemma mem_strtreeQuery (geoms : List Geometry) (pred : Geometry → Geometry → Bool)
    (g : Geometry) (j : Nat) :
    j ∈ strtreeQuery geoms pred g ↔ ∃ t, geoms[j]? = some t ∧ pred g t = true := by
  unfold strtreeQuery
  rw [mem_queryAux]
  constructor
  · rintro ⟨k, t, hk, hp, rfl⟩
    exact ⟨t, by simpa using hk, hp⟩
  · rintro ⟨t, hj, hp⟩
    exact ⟨j, t, hj, hp, by omega⟩

lemma strtreeQuery_sorted (geoms : List Geometry) (pred : Geometry → Geometry → Bool)
    (g : Geometry) : List.Sorted (· < ·) (strtreeQuery geoms pred g) :=
  queryAux_sorted pred g geoms 0

lemma lt_length_of_mem_strtreeQuery {geoms : List Geometry}
    {pred : Geometry → Geometry → Bool} {g : Geometry} {j : Nat}
    (h : j ∈ strtreeQuery geoms pred g) : j < geoms.length := by
  rw [mem_strtreeQuery] at h
  obtain ⟨t, ht, _⟩ := h
  exact (List.getElem?_eq_some.mp ht).1

/-! Helper lemmas about the modelled `np.unique`. -/

lemma mem_npUnique (l : List Nat) (a : Nat) : a ∈ npUnique l ↔ a ∈ l := by
  unfold npUnique
  rw [(List.perm_insertionSort _ _).mem_iff, List.mem_dedup]

lemma npUnique_nodup (l : List Nat) : (npUnique l).Nodup :=
  ((List.perm_insertionSort _ _).nodup_iff).mpr (List.nodup_dedup l)

lemma npUnique_sorted (l : List Nat) : List.Sorted (· < ·) (npUnique l) :=
  (List.sorted_insertionSort _ _).lt_of_le (npUnique_nodup l)

lemma npUnique_eq_self {l : List Nat} (h : List.Sorted (· < ·) l) : npUnique l = l := by
  unfold npUnique
  have hnd : l.Nodup := h.nodup
  rw [List.dedup_eq_self.mpr hnd]
  exact List.Sorted.insertionSort_eq (h.imp fun hab => le_of_lt hab)

/-- Master behaviour of the embedded `union_query_strtree`: it always
succeeds, its output is strictly ascending, and it contains exactly the
indices returned by some per-constituent tree query. -/
lemma union_query_spec (gdf mask : List Geometry)
    (pred : Geometry → Geometry → Bool) :
    ∃ out, union_query_strtree gdf mask pred = .ok out ∧
      List.Sorted (· < ·) out ∧
      ∀ j, j ∈ out ↔
        ∃ c ∈ geomConstituents (union_all mask), j ∈ strtreeQuery gdf pred c := by
  cases hc : geomConstituents (union_all mask) with
  | nil => exact absurd hc (geomConstituents_union_all_ne_nil mask)
  | cons c cs =>
      cases cs with
      | nil =>
          refine ⟨strtreeQuery gdf pred c, ?_, strtreeQuery_sorted gdf pred c, ?_⟩
          · simp [union_query_strtree, decomposeQuery, hc]
          · intro j
            simp
      | cons c2 cs2 =>
          refine ⟨npUnique (((c :: c2 :: cs2).map (strtreeQuery gdf pred)).flatten),
            ?_, npUnique_sorted _, ?_⟩
          · simp [union_query_strtree, decomposeQuery, hc, npConcatenate]
          · intro j
            rw [mem_npUnique, List.mem_flatten]
            constructor
            · rintro ⟨l, hl, hj⟩
              obtain ⟨cg, hcg, rfl⟩ := List.mem_map.mp hl
              exact ⟨cg, hcg, hj⟩
            · rintro ⟨cg, hcg, hj⟩
              exact ⟨strtreeQuery gdf pred cg, List.mem_map.mpr ⟨cg, hcg, rfl⟩, hj⟩

/-- C1: with the default intersects predicate, the returned array contains
index `i` iff tile `i` intersects at least one constituent polygon of the
unioned land mask — equivalently iff it intersects the land union — every
returned index is in range, and each such index appears exactly once. -/
theorem s2grid_C1 (gdf mask : List Geometry) :
    ∃ out, union_query_strtree gdf mask intersectsB = .ok out ∧
      (∀ i ∈ out, i < gdf.length) ∧
      (∀ i, ∀ h : i < gdf.length,
        (i ∈ out ↔ ∃ c ∈ geomConstituents (union_all mask),
          intersectsB gdf[i] c = true)) ∧
      (∀ i, ∀ h : i < gdf.length,
        (i ∈ out ↔ intersectsB gdf[i] (union_all mask) = true)) ∧
      (∀ i ∈ out, out.count i = 1) := by
  obtain ⟨out, heq, hsort, hmem⟩ := union_query_spec gdf mask intersectsB
  have hbound : ∀ i ∈ out, i < gdf.length := by
    intro i hi
    obtain ⟨c, _, hq⟩ := (hmem i).mp hi
    exact lt_length_of_mem_strtreeQuery hq
  have hconst : ∀ i, ∀ h : i < gdf.length,
      (i ∈ out ↔ ∃ c ∈ geomConstituents (union_all mask),
        intersectsB gdf[i] c = true) := by
    intro i h
    rw [hmem i]
    constructor
    · rintro ⟨c, hc, hq⟩
      rw [mem_strtreeQuery] at hq
      obtain ⟨t, ht, hp⟩ := hq
      obtain ⟨h', ht'⟩ := List.getElem?_eq_some.mp ht
      refine ⟨c, hc, ?_⟩
      rw [intersectsB_comm, ht']
      exact hp
    · rintro ⟨c, hc, hp⟩
      refine ⟨c, hc, ?_⟩
      rw [mem_strtreeQuery]
      refine ⟨gdf[i], List.getElem?_eq_some.mpr ⟨h, rfl⟩, ?_⟩
      rw [intersectsB_comm]
      exact hp
  refine ⟨out, heq, hbound, hconst, ?_, ?_⟩
  · intro i h
    rw [hconst i h]
    exact intersects_constituents gdf[i] (union_all mask)
  · intro i hi
    exact List.count_eq_one_of_mem hsort.nodup hi

/-- C2: for every grid table, land mask and predicate, the returned array
is strictly ascending with no duplicate entries; the statement covers both
the single-constituent and the multi-constituent branch since it holds for
every possible land mask. -/
theorem s2grid_C2 (gdf mask : List Geometry) (pred : Geometry → Geometry → Bool) :
    ∃ out, union_query_strtree gdf mask pred = .ok out ∧
      List.Sorted (· < ·) out ∧ out.Nodup := by
  obtain ⟨out, heq, hs, _⟩ := union_query_spec gdf mask pred
  exact ⟨out, heq, hs, hs.nodup⟩

/-- C3: when the unioned land mask is a single simple polygon, the function
returns the single raw tree-query result unchanged, and that raw result
already equals its own sorted deduplicated form, so skipping the
deduplication step changes nothing. -/
theorem s2grid_C3 (gdf mask : List Geometry) (pred : Geometry → Geometry → Bool)
    (r : Rect) (h : union_all mask = Geometry.polygon r) :
    union_query_strtree gdf mask pred =
      .ok (strtreeQuery gdf pred (Geometry.polygon r)) ∧
    npUnique (strtreeQuery gdf pred (Geometry.polygon r)) =
      strtreeQuery gdf pred (Geometry.polygon r) := by
  constructor
  · simp [union_query_strtree, decomposeQuery, h, geomConstituents]
  · exact npUnique_eq_self (strtreeQuery_sorted gdf pred (Geometry.polygon r))

/-- C4: when the unioned land mask decomposes into two disjoint constituent
polygons, the returned index set is the union of the index sets returned by
querying with each constituent alone. -/
theorem s2grid_C4 (gdf mask : List Geometry) (p1 p2 : Rect)
    (h : union_all mask = Geometry.multiPolygon [p1, p2])
    (hdisj : Rect.overlaps p1 p2 = false) :
    ∃ out out1 out2,
      union_query_strtree gdf mask intersectsB = .ok out ∧
      union_query_strtree gdf [Geometry.polygon p1] intersectsB = .ok out1 ∧
      union_query_strtree gdf [Geometry.polygon p2] intersectsB = .ok out2 ∧
      ∀ i, i ∈ out ↔ (i ∈ out1 ∨ i ∈ out2) := by
  have hu1 : union_all [Geometry.polygon p1] = Geometry.polygon p1 := rfl
  have hu2 : union_all [Geometry.polygon p2] = Geometry.polygon p2 := rfl
  refine ⟨npUnique (strtreeQuery gdf intersectsB (Geometry.polygon p1) ++
      strtreeQuery gdf intersectsB (Geometry.polygon p2)),
    strtreeQuery gdf intersectsB (Geometry.polygon p1),
    strtreeQuery gdf intersectsB (Geometry.polygon p2), ?_, ?_, ?_, ?_⟩
  · simp [union_query_strtree, decomposeQuery, h, geomConstituents, npConcatenate]
  · simp [union_query_strtree, decomposeQuery, hu1, geomConstituents]
  · simp [union_query_strtree, decomposeQuery, hu2, geomConstituents]
  · intro i
    rw [mem_npUnique, List.mem_append]

/-- C5: the filter is deterministic — two runs on identical inputs (same
grid table, same land mask, same predicate) return identical arrays with
identical element order; in this pure embedding of the source, which has no
source of nondeterminism, the two runs compute the same function. -/
theorem s2grid_C5 (gdf1 gdf2 mask1 mask2 : List Geometry)
    (pred1 pred2 : Geometry → Geometry → Bool)
    (hg : gdf1 = gdf2) (hm : mask1 = mask2) (hp : pred1 = pred2) :
    union_query_strtree gdf1 mask1 pred1 = union_query_strtree gdf2 mask2 pred2 := by
  rw [hg, hm, hp]

/-- C6: the dispatch on the unioned query object raises
`ValueError("geometry must be a shapely.Geometry")` iff that object is not
a recognized geometry (a MultiPolygon is decomposed, any other geometry is
kept whole, nothing else is coerced); and since the union of the
geometries of a GeoDataFrame is always a geometry, `union_query_strtree`
itself always returns an index array. -/
theorem s2grid_C6 :
    (∀ o : PyObject,
      (decomposeQuery o =
          .error (PyError.valueError ("geometry must be a shapely.Geometry")) ↔
        o.isGeom = false)) ∧
    (∀ gdf mask : List Geometry, ∀ pred : Geometry → Geometry → Bool,
      ∃ out, union_query_strtree gdf mask pred = .ok out) := by
  constructor
  · intro o
    cases o with
    | geom g => simp [decomposeQuery, PyObject.isGeom]
    | other => simp [decomposeQuery, PyObject.isGeom]
  · intro gdf mask pred
    obtain ⟨out, heq, _, _⟩ := union_query_spec gdf mask pred
    exact ⟨out, heq⟩

/-- C9: every index in the returned array is a valid 0-based row position
into the indexed grid table. -/
theorem s2grid_C9 (gdf mask : List Geometry) (pred : Geometry → Geometry → Bool) :
    ∃ out, union_query_strtree gdf mask pred = .ok out ∧
      ∀ i ∈ out, i < gdf.length := by
  obtain ⟨out, heq, _, hmem⟩ := union_query_spec gdf mask pred
  refine ⟨out, heq, fun i hi => ?_⟩
  obtain ⟨c, _, hq⟩ := (hmem i).mp hi
  exact lt_length_of_mem_strtreeQuery hq

/-- Witness for C1 at the concrete fixtures: the filter returns `[0]`, the
returned index is in range and appears exactly once. -/
theorem s2grid_C1_witness :
    0 < gdfW.length ∧ ([0] : List Nat).count 0 = 1 := by
  obtain ⟨out, heq, hb, hconst, hunion, hcount⟩ := s2grid_C1 gdfW maskW
  have h0 : union_query_strtree gdfW maskW intersectsB = .ok [0] := by rfl
  rw [heq] at h0
  injection h0 with hout
  subst hout
  exact ⟨hb 0 (by simp), hcount 0 (by simp)⟩

/-- Witness for C3 at a concrete single-polygon land mask. -/
theorem s2grid_C3_witness :
    union_query_strtree gdfW [Geometry.polygon ⟨0, 0, 4, 4⟩] intersectsB =
      .ok (strtreeQuery gdfW intersectsB (Geometry.polygon ⟨0, 0, 4, 4⟩)) ∧
    npUnique (strtreeQuery gdfW intersectsB (Geometry.polygon ⟨0, 0, 4, 4⟩)) =
      strtreeQuery gdfW intersectsB (Geometry.polygon ⟨0, 0, 4, 4⟩) :=
  s2grid_C3 gdfW [Geometry.polygon ⟨0, 0, 4, 4⟩] intersectsB ⟨0, 0, 4, 4⟩ (by rfl)

/-- Witness for C4 at the concrete fixtures, whose two mask polygons are
disjoint. -/
theorem s2grid_C4_witness :
    ∃ out out1 out2,
      union_query_strtree gdfW maskW intersectsB = .ok out ∧
      union_query_strtree gdfW [Geometry.polygon ⟨0, 0, 2, 2⟩] intersectsB = .ok out1 ∧
      union_query_strtree gdfW [Geometry.polygon ⟨10, 10, 11, 11⟩] intersectsB = .ok out2 ∧
      ∀ i, i ∈ out ↔ (i ∈ out1 ∨ i ∈ out2) :=
  s2grid_C4 gdfW maskW ⟨0, 0, 2, 2⟩ ⟨10, 10, 11, 11⟩ (by rfl) (by rfl)

/-- Witness for C5 at the concrete fixtures. -/
theorem s2grid_C5_witness :
    union_query_strtree gdfW maskW intersectsB =
      union_query_strtree gdfW maskW intersectsB :=
  s2grid_C5 gdfW gdfW maskW maskW intersectsB intersectsB rfl rfl rfl

/-- Witness for C9 at the concrete fixtures: the returned index 0 is a
valid row position of the two-row grid. -/
theorem s2grid_C9_witness : 0 < gdfW.length := by
  obtain ⟨out, heq, hb⟩ := s2grid_C9 gdfW maskW intersectsB
  have h0 : union_query_strtree gdfW maskW intersectsB = .ok [0] := by rfl
  rw [heq] at h0
  injection h0 with hout
  subst hout
  exact hb 0 (by simp)

/-! Lemmas about the modelled regex search, used by the C10 analysis. -/

lemma findDelim_sound (B : List Char) :
    ∀ l cap rest : List Char, findDelim B l = some (cap, rest) →
      l = cap ++ B ++ rest ∧ cap ≠ [] ∧ '\n' ∉ cap := by
  intro l
  induction l with
  | nil => intro cap rest h; simp [findDelim] at h
  | cons c cs ih =>
      intro cap rest h
      simp only [findDelim] at h
      by_cases hn : c = '\n'
      · rw [if_pos hn] at h
        exact Option.noConfusion h
      · rw [if_neg hn] at h
        by_cases hb : B.isPrefixOf cs
        · rw [if_pos hb] at h
          simp only [Option.some.injEq, Prod.mk.injEq] at h
          obtain ⟨hcap, hrest⟩ := h
          subst hcap
          subst hrest
          obtain ⟨t, ht⟩ := List.isPrefixOf_iff_prefix.mp hb
          refine ⟨?_, by simp, ?_⟩
          · rw [← ht]
            simp [List.drop_left]
          · intro hm
            exact hn (List.mem_singleton.mp hm).symm
        · rw [if_neg hb] at h
          cases hrec : findDelim B cs with
          | none => rw [hrec] at h; exact Option.noConfusion h
          | some pr =>
              obtain ⟨cap', rest'⟩ := pr
              rw [hrec] at h
              simp only [Option.some.injEq, Prod.mk.injEq] at h
              obtain ⟨hcap, hrest⟩ := h
              subst hcap
              subst hrest
              obtain ⟨heq, hne, hnl⟩ := ih cap' rest' hrec
              refine ⟨?_, by simp, ?_⟩
              · rw [heq]
                simp
              · intro hmem
                rcases List.mem_cons.mp hmem with h' | h'
                · exact hn h'.symm
                · exact hnl h'

lemma findallAux_head_sound (A B : List Char) :
    ∀ (fuel : Nat) (s cap : List Char) (caps : List (List Char)),
      findallAux A B fuel s = cap :: caps →
      ∃ pre post, s = pre ++ A ++ cap ++ B ++ post ∧ cap ≠ [] ∧ '\n' ∉ cap := by
  intro fuel
  induction fuel with
  | zero => intro s cap caps h; simp [findallAux] at h
  | succ fuel ih =>
      intro s cap caps h
      cases s with
      | nil => simp [findallAux] at h
      | cons c cs =>
          simp only [findallAux] at h
          by_cases hA : A.isPrefixOf (c :: cs)
          · rw [if_pos hA] at h
            cases hd : findDelim B ((c :: cs).drop A.length) with
            | some pr =>
                obtain ⟨cap', rest⟩ := pr
                rw [hd] at h
                injection h with h1 h2
                subst h1
                obtain ⟨hdec, hne, hnl⟩ := findDelim_sound B _ cap' rest hd
                obtain ⟨t, ht⟩ := List.isPrefixOf_iff_prefix.mp hA
                have htt : t = cap' ++ B ++ rest := by
                  rw [← hdec, ← ht]
                  simp [List.drop_left]
                refine ⟨[], rest, ?_, hne, hnl⟩
                rw [← ht, htt]
                simp
            | none =>
                rw [hd] at h
                obtain ⟨pre, post, hs, hne, hnl⟩ := ih cs cap caps h
                exact ⟨c :: pre, post, by simp [hs], hne, hnl⟩
          · rw [if_neg hA] at h
            obtain ⟨pre, post, hs, hne, hnl⟩ := ih cs cap caps h
            exact ⟨c :: pre, post, by simp [hs], hne, hnl⟩

lemma findallDelim_head_sound (A B s cap : List Char) (caps : List (List Char))
    (h : findallDelim A B s = cap :: caps) :
    ∃ pre post, s = pre ++ A ++ cap ++ B ++ post ∧ cap ≠ [] ∧ '\n' ∉ cap :=
  findallAux_head_sound A B (s.length + 1) s cap caps h

lemma pyGet_zero_cons {α : Type} (a : α) (l : List α) : pyGet (a :: l) 0 = .ok a := by
  have hcond : ((0 : Int) ≤ 0 ∧ (0 : Int) < ((a :: l).length : Int)) := by
    refine ⟨le_refl 0, ?_⟩
    exact_mod_cast Nat.succ_pos l.length
  unfold pyGet
  simp only [if_neg (lt_irrefl (0 : Int))]
  rw [dif_pos hcond]
  simp

/-- C7: whenever the metadata piece selected by the split does not contain
the expected pattern (the regex search yields no match), the extraction
raises an IndexError — the `m[0]` of an empty match list — instead of
returning a default or partial value; for `get_epsg` with its EPSG regex
and for `get_utm_wkt` with its MULTIPOLYGON regex alike. -/
theorem s2grid_C7 (d : List Char) :
    (∀ text, pyGet (pySplit bTag d) 2 = .ok text →
      findallDelim fontOpen fontClose text = [] →
      get_epsg d = .error PyError.indexError) ∧
    (∀ text, pyGet (pySplit bTag d) (-2) = .ok text →
      findallDelim mpOpen mpClose text = [] →
      get_utm_wkt d = .error PyError.indexError) := by
  constructor
  · intro text h1 h2
    simp only [get_epsg, h1, h2]
    rfl
  · intro text h1 h2
    simp only [get_utm_wkt, h1, h2]
    rfl

/-- Witness for C7 at a concrete description whose selected pieces contain
neither pattern: both extractions raise an IndexError. -/
theorem s2grid_C7_witness :
    get_epsg ("a<b>x<b>y<b>z".toList) = .error PyError.indexError ∧
    get_utm_wkt ("a<b>x<b>y<b>z".toList) = .error PyError.indexError :=
  ⟨(s2grid_C7 ("a<b>x<b>y<b>z".toList)).1 ("y".toList) (by rfl) (by rfl),
   (s2grid_C7 ("a<b>x<b>y<b>z".toList)).2 ("y".toList) (by rfl) (by rfl)⟩

/-- C8 counterexample: for an input list with exactly one non-Point
geometry (the common case of a tile not crossing the antimeridian),
`multipolygon_from_geoms` returns a `Polygon`, not a `MultiPolygon`, so the
claim that it returns a MultiPolygon for every input with at least one
non-Point geometry is false. -/
theorem s2grid_C8_counterexample :
    Geometry.isMultiPolygonB
        (multipolygon_from_geoms
          [Geometry.point 0 0, Geometry.polygon ⟨0, 0, 1, 1⟩]) = false ∧
    Geometry.isPolygonB
        (multipolygon_from_geoms
          [Geometry.point 0 0, Geometry.polygon ⟨0, 0, 1, 1⟩]) = true := by
  exact ⟨rfl, rfl⟩

/-- C8 amended: `multipolygon_from_geoms` returns a `Polygon` when the
input list contains exactly one non-Point geometry, and a `MultiPolygon`
for any other count of non-Point geometries (its own docstring and return
annotation say `MultiPolygon | Polygon`). -/
theorem s2grid_C8_amended (geoms : List Geometry) :
    ((geoms.filter fun g => !g.isPoint).length = 1 →
      Geometry.isPolygonB (multipolygon_from_geoms geoms) = true) ∧
    ((geoms.filter fun g => !g.isPoint).length ≠ 1 →
      Geometry.isMultiPolygonB (multipolygon_from_geoms geoms) = true) := by
  cases hf : geoms.filter (fun g => !g.isPoint) with
  | nil =>
      refine ⟨fun h1 => ?_, fun h2 => ?_⟩
      · simp at h1
      · simp [multipolygon_from_geoms, hf, Geometry.isMultiPolygonB]
  | cons p ps =>
      cases ps with
      | nil =>
          refine ⟨fun h1 => ?_, fun h2 => ?_⟩
          · simp [multipolygon_from_geoms, hf, Geometry.isPolygonB]
          · simp at h2
      | cons q qs =>
          refine ⟨fun h1 => ?_, fun h2 => ?_⟩
          · simp [List.length_cons] at h1
          · simp [multipolygon_from_geoms, hf, Geometry.isMultiPolygonB]

/-- Witness for the amended C8: one non-Point input yields a Polygon, two
yield a MultiPolygon. -/
theorem s2grid_C8_amended_witness :
    Geometry.isPolygonB
        (multipolygon_from_geoms
          [Geometry.point 0 0, Geometry.polygon ⟨0, 0, 1, 1⟩]) = true ∧
    Geometry.isMultiPolygonB
        (multipolygon_from_geoms
          [Geometry.polygon ⟨0, 0, 1, 1⟩, Geometry.polygon ⟨2, 2, 3, 3⟩]) = true :=
  ⟨(s2grid_C8_amended [Geometry.point 0 0, Geometry.polygon ⟨0, 0, 1, 1⟩]).1 (by rfl),
   (s2grid_C8_amended
      [Geometry.polygon ⟨0, 0, 1, 1⟩, Geometry.polygon ⟨2, 2, 3, 3⟩]).2 (by decide)⟩

/-- C10 counterexample: on a description whose MULTIPOLYGON text has two
polygon parts, the lazy capture runs to the first `)))`, so the second part
is carried into the returned string instead of being discarded — the output
is not `POLYGON ((first ring))`. -/
theorem s2grid_C10_counterexample :
    get_utm_wkt ("x<b>MULTIPOLYGON(((1 1,2 2)),((3 3,4 4)))<b>tail".toList) =
      .ok ("POLYGON ((1 1,2 2)),((3 3,4 4))".toList) ∧
    "POLYGON ((1 1,2 2)),((3 3,4 4))".toList ≠ "POLYGON ((1 1,2 2))".toList := by
  exact ⟨by rfl, by decide⟩

/-- C10 amended: for a description whose selected metadata piece contains
the MULTIPOLYGON pattern, `get_utm_wkt` returns exactly
`"POLYGON ((" ++ cap ++ "))"` where `cap` is the first capture of the lazy
regex: the shortest nonempty newline-free text that follows the first
feasible `MULTIPOLYGON(((` and is immediately followed by `)))`.  For the
single-ring single-part data the script targets this is the first ring, but
text of holes or further parts lying before the first `)))` is carried into
the output verbatim, not discarded. -/
theorem s2grid_C10_amended (d text cap : List Char) (caps : List (List Char))
    (h1 : pyGet (pySplit bTag d) (-2) = .ok text)
    (h2 : findallDelim mpOpen mpClose text = cap :: caps) :
    get_utm_wkt d = .ok ("POLYGON ((".toList ++ cap ++ "))".toList) ∧
    ∃ pre post, text = pre ++ mpOpen ++ cap ++ mpClose ++ post ∧
      cap ≠ [] ∧ '\n' ∉ cap := by
  constructor
  · simp only [get_utm_wkt, h1, h2, pyGet_zero_cons]
  · exact findallDelim_head_sound mpOpen mpClose text cap caps h2

/-- Witness for the amended C10 at a concrete single-part description. -/
theorem s2grid_C10_amended_witness :
    get_utm_wkt ("x<b>MULTIPOLYGON(((1 1,2 2)))<b>tail".toList) =
      .ok ("POLYGON ((".toList ++ "1 1,2 2".toList ++ "))".toList) ∧
    ∃ pre post, "MULTIPOLYGON(((1 1,2 2)))".toList =
      pre ++ mpOpen ++ "1 1,2 2".toList ++ mpClose ++ post ∧
      "1 1,2 2".toList ≠ [] ∧ '\n' ∉ "1 1,2 2".toList :=
  s2grid_C10_amended ("x<b>MULTIPOLYGON(((1 1,2 2)))<b>tail".toList)
    ("MULTIPOLYGON(((1 1,2 2)))".toList) ("1 1,2 2".toList) [] (by rfl) (by rfl)
